import Mathlib

/-!
Shallow embedding of the picknblend component resolution and placement
engine (src/picknblend/modules: importer.py, pnp.py, bom.py, csvparser.py,
library.py) in Lean 4, together with theorems checking the natural
language specification against the code.

Conventions of the embedding:
- Python dicts are modelled as association lists (`List (String × α)`)
  with `alookup` (first match wins; dict insertion keeps keys unique, so
  the first match is the only one) and `dinsert` (replace in place when
  the key exists, append otherwise, matching dict insertion order).
- Python floats are modelled as rational numbers `ℚ`; the quantities the
  spec reasons about (position and rotation arithmetic) are exact on the
  inputs in question.
- Euler rotation angles are recorded in degrees; the source converts
  to radians when handing them to the scene backend, a unit change that
  carries no information.
-/

deriving instance DecidableEq for Except

namespace PicknBlend

/-- Association list lookup modelling a Python dict read (`d[k]` / `k in d`). -/
def alookup {α : Type} (k : String) : List (String × α) → Option α
  | [] => none
  | kv :: rest => if kv.1 = k then some kv.2 else alookup k rest

/-- Membership test on an association list, modelling Python `k in d`. -/
def containsKey {α : Type} (k : String) (d : List (String × α)) : Bool :=
  (alookup k d).isSome

/-- Association list insertion modelling Python dict assignment `d[k] = v`:
the value is replaced in place when the key exists, appended otherwise. -/
def dinsert {α : Type} (k : String) (v : α) : List (String × α) → List (String × α)
  | [] => [(k, v)]
  | kv :: rest => if kv.1 = k then (k, v) :: rest else kv :: dinsert k v rest

/-- One parsed PNP row (pnp.py, class ComponentData): reference, value,
footprint, x and y position, rotation, side, and optional footprint
override name (default empty). Correction records from the override file
reuse the same record type, as in the source. -/
structure ComponentData where
  reference : String
  value : String
  footprint : String
  pos_x : ℚ
  pos_y : ℚ
  rot : ℚ
  side : String
  override : String
deriving DecidableEq

/-- Python `reference.strip("0123456789")` (importer.py line 92): remove
digits from both ends of the string. -/
def stripDigits (s : String) : String :=
  ⟨((s.toList.dropWhile Char.isDigit).reverse.dropWhile Char.isDigit).reverse⟩

/-- One emitted placement instruction: resolved model (footprint) name,
instance name, absolute position, Euler rotation in degrees, and side.
Position and rotation are the values import_comp assigns on lines 258-282
of importer.py, recentering included. -/
structure Placement where
  footprint : String
  name : String
  pos : ℚ × ℚ × ℚ
  rot : ℚ × ℚ × ℚ
  side : String
deriving DecidableEq

/-- Outcome of processing one PNP entry in process_components_import. -/
inductive ImportOutcome where
  | skippedMechanical
  | notFound (pkg : String)
  | skippedSide (side : String)
  | placed (p : Placement)
deriving DecidableEq

/-- Location and rotation assigned by import_comp (importer.py lines
258-282): side T places at (posx, posy, posZ) with rotation (0, 0, deg),
any other side (only B reaches this code) places at (-posx, posy, posZ)
with rotation (180, 0, deg); both are then recentered by subtracting half
the PCB dimensions from x and y (line 282). -/
def transformFor (posx posy : ℚ) (side : String) (deg posZ dimX dimY : ℚ) :
    (ℚ × ℚ × ℚ) × (ℚ × ℚ × ℚ) :=
  if side = "T" then
    ((posx - dimX / 2, posy - dimY / 2, posZ), (0, 0, deg))
  else
    ((-posx - dimX / 2, posy - dimY / 2, posZ), (180, 0, deg))

/-- The observable placement behaviour of import_comp (importer.py lines
188-283) for a top-level component: reject a side that is neither T nor B
(lines 207-209, log and return), otherwise emit the placement with the
transform of lines 258-282. The `posZ` argument is the board_thickness
parameter of import_comp, which the caller sets to 0 for side B entries. -/
def importCompPos (pkg name : String) (posx posy : ℚ) (side : String)
    (deg posZ dimX dimY : ℚ) : ImportOutcome :=
  if side ≠ "T" ∧ side ≠ "B" then .skippedSide side
  else
    let tr := transformFor posx posy side deg posZ dimX dimY
    .placed ⟨pkg, name, tr.1, tr.2, side⟩

/-- Correction record selection (importer.py lines 99-107): the
reference-footprint key is consulted first, the footprint-only key is
consulted only when the first lookup misses. -/
def selectOverride (overrideData : List (String × ComponentData))
    (refPkg pkg : String) : Option ComponentData :=
  match alookup refPkg overrideData with
  | some o => some o
  | none => alookup pkg overrideData

/-- Application of a selected correction record (importer.py lines
108-116): add the position and rotation deltas, substitute the footprint
when the Override column is nonempty, and on the flip marker invert the
side and negate pos_x (after the delta was added). Returns the corrected
component data and the active footprint. -/
def applyOverride (c : ComponentData) (pkg : String) :
    Option ComponentData → ComponentData × String
  | none => (c, pkg)
  | some ov =>
    let c1 := { c with
      pos_x := c.pos_x + ov.pos_x
      pos_y := c.pos_y + ov.pos_y
      rot := c.rot + ov.rot }
    let pkg1 := if ov.override ≠ "" then ov.override else pkg
    if ov.side = "flip" then
      ({ c1 with side := if c1.side = "B" then "T" else "B", pos_x := -c1.pos_x }, pkg1)
    else
      (c1, pkg1)

/-- Marking substitution (importer.py lines 120-126): when marking display
is enabled, the lookup key into the marking map is the component REFERENCE
(the map built by bom.parse_markings is keyed by footprint); when the
lookup hits and the composite name footprint-marking is in the library,
the composite becomes the active footprint. -/
def applyMarking (showMarkings : Bool) (markingIdData : List (String × String))
    (blendModelsList : List (String × String)) (reference pkg : String) : String :=
  if showMarkings then
    match alookup reference markingIdData with
    | none => pkg
    | some mid =>
      if containsKey (pkg ++ "-" ++ mid) blendModelsList then pkg ++ "-" ++ mid else pkg
  else pkg

/-- Per-entry pipeline of process_components_import (importer.py lines
90-148): mechanical filter, correction merge, marking substitution,
library existence check, then the import_comp transform. `boardThickness`
is the board thickness, `dimX`/`dimY` the PCB dimensions used for
recentering. -/
def processComponent (showMechanical showMarkings : Bool)
    (overrideData : List (String × ComponentData))
    (markingIdData : List (String × String))
    (blendModelsList : List (String × String))
    (boardThickness dimX dimY : ℚ)
    (component : ComponentData) : ImportOutcome :=
  if showMechanical = false ∧ stripDigits component.reference = "A" then
    .skippedMechanical
  else
    let name := component.reference ++ ":" ++ component.value
    let ov := selectOverride overrideData
      (component.reference ++ "-" ++ component.footprint) component.footprint
    let cp := applyOverride component component.footprint ov
    let posZ : ℚ := if cp.1.side = "B" then 0 else boardThickness
    let pkg2 := applyMarking showMarkings markingIdData blendModelsList cp.1.reference cp.2
    if containsKey pkg2 blendModelsList = false then .notFound pkg2
    else importCompPos pkg2 name cp.1.pos_x cp.1.pos_y cp.1.side cp.1.rot posZ dimX dimY

/-- One BOM row as extracted by bom.py (class RequiredData): footprint,
manufacturer and manufacturer part number. -/
structure RequiredData where
  footprint : String
  manufacturer : String
  mpn : String
deriving DecidableEq

/-- Helper for convertToId: model of re.sub applied to the stripped
string, replacing every run of spaces by a single hyphen. The Boolean
records whether the previous character was part of a space run. -/
def collapseSpacesAux : Bool → List Char → List Char
  | _, [] => []
  | prevSpace, c :: rest =>
    if c = ' ' then
      if prevSpace then collapseSpacesAux true rest
      else '-' :: collapseSpacesAux true rest
    else c :: collapseSpacesAux false rest

/-- bom.convert_to_id: lower-case, replace every character outside a-z
and 0-9 by a space, strip, and collapse space runs to single hyphens.
unidecode is the identity on the ASCII strings this embedding covers, and
Python str.lower agrees with Char.toLower there. -/
def convertToId (s : String) : String :=
  let lowered := s.toList.map Char.toLower
  let spaced := lowered.map fun ch => if ch.isLower ∨ ch.isDigit then ch else ' '
  let stripped := ((spaced.dropWhile (· = ' ')).reverse.dropWhile (· = ' ')).reverse
  ⟨collapseSpacesAux false stripped⟩

/-- bom.parse_markings over the already-extracted BOM rows: build the
marking map keyed by FOOTPRINT, with value the slug of
manufacturer-mpn. -/
def parse_markings (rows : List RequiredData) : List (String × String) :=
  rows.foldl
    (fun m r => dinsert r.footprint (convertToId (r.manufacturer ++ "-" ++ r.mpn)) m) []

/-- pnp.get_pnp_files side normalization (pnp.py lines 78-87): the bottom
spellings are checked first, then the top spellings; anything else passes
through unchanged. -/
def normalizeSide (side : String) : String :=
  if side = "bottom" ∨ side = "Bottom" ∨ side = "BottomLayer" then "B"
  else if side = "top" ∨ side = "Top" ∨ side = "TopLayer" then "T"
  else side

/-- Claim C1, as stated, is false: for the Scenario C inputs the engine
emits side B but position (11, 5, 0), not (−11, 5, 0). The side flip
negates pos_x to −11 (after the +1 delta), and then the side-B transform
of import_comp negates it again, so the two negations cancel. -/
theorem c1_scenario_c_yields_positive_x :
    processComponent true false
        [("R1-R_0402", ⟨"R1", "", "R_0402", 1, 0, 0, "flip", ""⟩)]
        [] [("R_0402", "lib/R_0402.blend")] (8/5) 0 0
        ⟨"R1", "10k", "R_0402", 10, 5, 90, "T", ""⟩ =
      .placed ⟨"R_0402", "R1:10k", (11, 5, 0), (180, 0, 90), "B"⟩ ∧
    processComponent true false
        [("R1-R_0402", ⟨"R1", "", "R_0402", 1, 0, 0, "flip", ""⟩)]
        [] [("R_0402", "lib/R_0402.blend")] (8/5) 0 0
        ⟨"R1", "10k", "R_0402", 10, 5, 90, "T", ""⟩ ≠
      .placed ⟨"R_0402", "R1:10k", (-11, 5, 0), (180, 0, 90), "B"⟩ := by
  constructor
  · simp [processComponent, selectOverride, applyOverride, applyMarking,
      importCompPos, transformFor, alookup, containsKey, stripDigits]
    norm_num
  · simp [processComponent, selectOverride, applyOverride, applyMarking,
      importCompPos, transformFor, alookup, containsKey, stripDigits]
    norm_num

/-- Claim C1 (amended): for the Scenario C inputs the engine emits side B;
the flip inverts the side and negates pos_x after the delta is added
(giving an intermediate pos_x of −11), and the side-B transform negates
the x coordinate once more, so the emitted (before recentering) position
is (11, 5, 0) with rotation (180°, 0°, 90°). -/
theorem c1_scenario_c_amended :
    (applyOverride ⟨"R1", "10k", "R_0402", 10, 5, 90, "T", ""⟩ "R_0402"
        (some ⟨"R1", "", "R_0402", 1, 0, 0, "flip", ""⟩)).1.side = "B" ∧
    (applyOverride ⟨"R1", "10k", "R_0402", 10, 5, 90, "T", ""⟩ "R_0402"
        (some ⟨"R1", "", "R_0402", 1, 0, 0, "flip", ""⟩)).1.pos_x = -11 ∧
    processComponent true false
        [("R1-R_0402", ⟨"R1", "", "R_0402", 1, 0, 0, "flip", ""⟩)]
        [] [("R_0402", "lib/R_0402.blend")] (8/5) 0 0
        ⟨"R1", "10k", "R_0402", 10, 5, 90, "T", ""⟩ =
      .placed ⟨"R_0402", "R1:10k", (11, 5, 0), (180, 0, 90), "B"⟩ := by
  refine ⟨by simp [applyOverride], by simp [applyOverride]; norm_num, ?_⟩
  simp [processComponent, selectOverride, applyOverride, applyMarking,
    importCompPos, transformFor, alookup, containsKey, stripDigits]
  norm_num

/-- Claim C2: side T places at (pos_x, pos_y, board_thickness) with
rotation (0, 0, rot); side B places at (−pos_x, pos_y, 0) with rotation
(180, 0, rot); both recenter x and y by half the board dimensions; and
the uncorrected Scenario A entry (10, 5, rot 90, side T, thickness 1.6)
yields position (10, 5, 1.6) and rotation (0, 0, 90) on model R_0402. -/
theorem c2_transform_computation :
    (∀ (comp : ComponentData) (models : List (String × String)) (th dX dY : ℚ),
      containsKey comp.footprint models = true →
      (comp.side = "T" →
        processComponent true false [] [] models th dX dY comp =
          .placed ⟨comp.footprint, comp.reference ++ ":" ++ comp.value,
            (comp.pos_x - dX / 2, comp.pos_y - dY / 2, th), (0, 0, comp.rot), "T"⟩) ∧
      (comp.side = "B" →
        processComponent true false [] [] models th dX dY comp =
          .placed ⟨comp.footprint, comp.reference ++ ":" ++ comp.value,
            (-comp.pos_x - dX / 2, comp.pos_y - dY / 2, 0), (180, 0, comp.rot), "B"⟩)) ∧
    processComponent true false [] [] [("R_0402", "lib/R_0402.blend")] (8/5) 0 0
      ⟨"R1", "10k", "R_0402", 10, 5, 90, "T", ""⟩ =
    .placed ⟨"R_0402", "R1:10k", (10, 5, 8/5), (0, 0, 90), "T"⟩ := by
  constructor
  · intro comp models th dX dY hmem
    constructor <;> intro hside <;>
      simp [processComponent, selectOverride, applyOverride, applyMarking,
        importCompPos, transformFor, alookup, hside, hmem]
  · simp [processComponent, selectOverride, applyOverride, applyMarking,
      importCompPos, transformFor, alookup, containsKey, stripDigits]

/-- Witness for claim C2 at a concrete side-B entry. -/
theorem c2_transform_computation_witness :
    processComponent true false [] [] [("C7", "lib/C7.blend")] (8/5) 4 2
      ⟨"C7", "100n", "C7", 3, 2, 45, "B", ""⟩ =
    .placed ⟨"C7", "C7:100n", (-3 - 4 / 2, 2 - 2 / 2, 0), (180, 0, 45), "B"⟩ :=
  ((c2_transform_computation.1 ⟨"C7", "100n", "C7", 3, 2, 45, "B", ""⟩
    [("C7", "lib/C7.blend")] (8/5) 4 2 (by simp [containsKey, alookup])).2 rfl)

/-- Claim C3: whenever the correction map has an entry under the
reference-footprint key of a PNP entry, processing that entry is
identical to processing it with only that reference-footprint record
present; any footprint-only record in the map contributes nothing. -/
theorem c3_reference_footprint_dominates
    (sm smk : Bool) (overrideData : List (String × ComponentData))
    (markingIdData models : List (String × String))
    (th dX dY : ℚ) (comp o : ComponentData)
    (h : alookup (comp.reference ++ "-" ++ comp.footprint) overrideData = some o) :
    processComponent sm smk overrideData markingIdData models th dX dY comp =
    processComponent sm smk [(comp.reference ++ "-" ++ comp.footprint, o)]
      markingIdData models th dX dY comp := by
  simp [processComponent, selectOverride, alookup, h]

/-- Witness for claim C3: a map holding both a reference-footprint record
and a footprint-only record behaves as if only the former were present. -/
theorem c3_reference_footprint_dominates_witness :
    processComponent true false
        [("R1-R_0402", ⟨"R1", "", "R_0402", 1, 0, 0, "", ""⟩),
         ("R_0402", ⟨"", "", "R_0402", 50, 50, 50, "flip", ""⟩)]
        [] [("R_0402", "lib/R_0402.blend")] (8/5) 0 0
        ⟨"R1", "10k", "R_0402", 10, 5, 90, "T", ""⟩ =
    processComponent true false
        [("R1-R_0402", ⟨"R1", "", "R_0402", 1, 0, 0, "", ""⟩)]
        [] [("R_0402", "lib/R_0402.blend")] (8/5) 0 0
        ⟨"R1", "10k", "R_0402", 10, 5, 90, "T", ""⟩ :=
  c3_reference_footprint_dominates true false _ [] [("R_0402", "lib/R_0402.blend")]
    (8/5) 0 0 ⟨"R1", "10k", "R_0402", 10, 5, 90, "T", ""⟩
    ⟨"R1", "", "R_0402", 1, 0, 0, "", ""⟩ (by simp [alookup])

/-- Claim C4 names the intended behaviour; the code diverges: the marking
map built by bom.parse_markings is keyed by footprint, yet importer.py
lines 121-124 look the component REFERENCE up in it, so for the Scenario D
inputs (map R_0402 → acme-123, library holding R_0402-acme-123, entry
Ref=R1 with footprint R_0402) the engine resolves the base model R_0402
instead of the composite. The last two conjuncts isolate the slip: the
spec-prescribed footprint key would select the composite, the reference
key does not. -/
theorem c4_marking_lookup_uses_reference_not_footprint :
    parse_markings [⟨"R_0402", "Acme", "123"⟩] = [("R_0402", "acme-123")] ∧
    processComponent true true [] [("R_0402", "acme-123")]
        [("R_0402", "lib/R_0402.blend"), ("R_0402-acme-123", "lib/R_0402-acme-123.blend")]
        (8/5) 0 0 ⟨"R1", "10k", "R_0402", 10, 5, 90, "T", ""⟩ =
      .placed ⟨"R_0402", "R1:10k", (10, 5, 8/5), (0, 0, 90), "T"⟩ ∧
    applyMarking true [("R_0402", "acme-123")]
        [("R_0402", "lib/R_0402.blend"), ("R_0402-acme-123", "lib/R_0402-acme-123.blend")]
        "R_0402" "R_0402" = "R_0402-acme-123" ∧
    applyMarking true [("R_0402", "acme-123")]
        [("R_0402", "lib/R_0402.blend"), ("R_0402-acme-123", "lib/R_0402-acme-123.blend")]
        "R1" "R_0402" = "R_0402" := by
  refine ⟨by decide, ?_, by decide, by decide⟩
  simp [processComponent, selectOverride, applyOverride, applyMarking,
    importCompPos, transformFor, alookup, containsKey, stripDigits]

/-- Helper: a placed outcome of import_comp always carries side T or B. -/
theorem importCompPos_placed_side {pkg name : String} {posx posy deg posZ dX dY : ℚ}
    {s : String} {p : Placement}
    (h : importCompPos pkg name posx posy s deg posZ dX dY = .placed p) :
    p.side = "T" ∨ p.side = "B" := by
  unfold importCompPos at h
  split at h
  · exact absurd h (by simp)
  · rename_i hcond
    simp only [ImportOutcome.placed.injEq] at h
    have hs : s = "T" ∨ s = "B" := by tauto
    rw [← h]
    simpa using hs

/-- Claim C8: the PNP loader normalizes the six recognized side spellings
to T and B and passes every other value through unchanged; every placed
outcome of the engine carries side exactly T or B; and a record whose
side is neither T nor B is skipped by import_comp with a per-record log,
never a run failure. -/
theorem c8_side_invariant :
    (normalizeSide "top" = "T" ∧ normalizeSide "Top" = "T" ∧
     normalizeSide "TopLayer" = "T" ∧ normalizeSide "bottom" = "B" ∧
     normalizeSide "Bottom" = "B" ∧ normalizeSide "BottomLayer" = "B") ∧
    (∀ s : String,
      ¬(s = "bottom" ∨ s = "Bottom" ∨ s = "BottomLayer") →
      ¬(s = "top" ∨ s = "Top" ∨ s = "TopLayer") →
      normalizeSide s = s) ∧
    (∀ (sm smk : Bool) (od : List (String × ComponentData))
       (mid models : List (String × String)) (th dX dY : ℚ)
       (comp : ComponentData) (p : Placement),
      processComponent sm smk od mid models th dX dY comp = .placed p →
      p.side = "T" ∨ p.side = "B") ∧
    (∀ (pkg name : String) (posx posy : ℚ) (s : String) (deg posZ dX dY : ℚ),
      s ≠ "T" → s ≠ "B" →
      importCompPos pkg name posx posy s deg posZ dX dY = .skippedSide s) := by
  refine ⟨by decide, ?_, ?_, ?_⟩
  · intro s hb ht
    simp [normalizeSide, hb, ht]
  · intro sm smk od mid models th dX dY comp p h
    simp only [processComponent] at h
    split at h
    · exact absurd h (by simp)
    · split at h
      · exact absurd h (by simp)
      · exact importCompPos_placed_side h
  · intro pkg name posx posy s deg posZ dX dY hT hB
    simp [importCompPos, hT, hB]

/-- Witness for claim C8: the pass-through, placed-side and skip parts
applied at concrete inputs. -/
theorem c8_side_invariant_witness :
    normalizeSide "oops" = "oops" ∧
    ((Placement.mk "R_0402" "R1:10k" (10, 5, 8/5) (0, 0, 90) "T").side = "T" ∨
     (Placement.mk "R_0402" "R1:10k" (10, 5, 8/5) (0, 0, 90) "T").side = "B") ∧
    importCompPos "R_0402" "R1:10k" 10 5 "oops" 90 0 0 0 = .skippedSide "oops" := by
  refine ⟨c8_side_invariant.2.1 "oops" (by decide) (by decide), ?_, ?_⟩
  · refine c8_side_invariant.2.2.1 true false [] [] [("R_0402", "lib/R_0402.blend")]
      (8/5) 0 0 ⟨"R1", "10k", "R_0402", 10, 5, 90, "T", ""⟩ _ ?_
    simp [processComponent, selectOverride, applyOverride, applyMarking,
      importCompPos, transformFor, alookup, containsKey, stripDigits]
  · exact c8_side_invariant.2.2.2 "R_0402" "R1:10k" 10 5 "oops" 90 0 0 0
      (by decide) (by decide)

/-- A value extracted for one record field: a string cell, a parsed
number, or the None placeholder assigned when empty values are allowed. -/
inductive FieldValue where
  | str (s : String)
  | num (q : ℚ)
  | null
deriving DecidableEq

/-- Errors of the extraction layer: the MissingColumn failure of
csvparser.extract_data_from_row (naming the field and the aliases tried)
and the ValueError a float() coercion raises on a malformed cell. -/
inductive ExtractError where
  | missingColumn (fieldName : String) (tried : List String)
  | valueError (cell : String)
deriving DecidableEq

/-- Declaration of one extracted record field: its name, the ordered
alias list from the csvnames metadata, whether its type coercion is
float, and its declared default value if any. -/
structure FieldSpec where
  name : String
  csvnames : List String
  isFloat : Bool
  fdefault : Option FieldValue
deriving DecidableEq

/-- Numeric value of a digit string (most significant first). -/
def digitsToNat (cs : List Char) : Nat :=
  cs.foldl (fun acc c => acc * 10 + (c.toNat - 48)) 0

/-- Python float() on the plain decimal numerals that occur in PNP and
override data (optional sign, digits, optional fraction); scientific
notation and surrounding whitespace lie outside the embedding. -/
def parseRat (s : String) : Option ℚ :=
  let cs := s.toList
  let signAndRest : ℚ × List Char :=
    match cs with
    | '-' :: rest => (-1, rest)
    | '+' :: rest => (1, rest)
    | _ => (1, cs)
  let body := signAndRest.2
  let intPart := body.takeWhile (· ≠ '.')
  let rest := body.drop intPart.length
  if intPart.all Char.isDigit = false then none
  else
    match rest with
    | [] =>
      if intPart.isEmpty then none
      else some (signAndRest.1 * (digitsToNat intPart : ℚ))
    | _ :: frac =>
      if frac.all Char.isDigit = false then none
      else if intPart.isEmpty ∧ frac.isEmpty then none
      else some (signAndRest.1 *
        ((digitsToNat intPart : ℚ) + (digitsToNat frac : ℚ) / (10 : ℚ) ^ frac.length))

/-- Type coercion of one cell (csvparser.py lines 70-74): float fields
treat an empty cell as "0" and parse it, raising ValueError on garbage;
string fields take the cell verbatim. -/
def coerceValue (isFloat : Bool) (cell : String) : Except ExtractError FieldValue :=
  if isFloat then
    let cell2 := if cell = "" then "0" else cell
    match parseRat cell2 with
    | some q => .ok (.num q)
    | none => .error (.valueError cell2)
  else .ok (.str cell)

/-- The alias loop of csvparser.extract_data_from_row (lines 67-74): every
alias is visited in order with NO break, each present alias is coerced
(an undefined coercion raises at that point), and the value of the last
present alias is the one kept. -/
def aliasFoldCsv (isFloat : Bool) (row : List (String × String)) :
    Option FieldValue → List String → Except ExtractError (Option FieldValue)
  | acc, [] => .ok acc
  | acc, colname :: rest =>
    match alookup colname row with
    | none => aliasFoldCsv isFloat row acc rest
    | some cell =>
      match coerceValue isFloat cell with
      | .ok fv => aliasFoldCsv isFloat row (some fv) rest
      | .error e => .error e

/-- Extraction of one field by csvparser.extract_data_from_row (lines
67-85): run the alias loop; on no value, use the declared default when
empty values are disallowed and a default exists, raise MissingColumn
when none exists, and assign the None placeholder when empty values are
allowed. Returns none when the dataclass default is to be used. -/
def extractFieldCsv (emptyAllowed : Bool) (row : List (String × String))
    (f : FieldSpec) : Except ExtractError (Option FieldValue) :=
  match aliasFoldCsv f.isFloat row none f.csvnames with
  | .error e => .error e
  | .ok (some fv) => .ok (some fv)
  | .ok none =>
    if emptyAllowed = false then
      if f.fdefault.isSome then .ok none
      else .error (.missingColumn f.name f.csvnames)
    else .ok (some .null)

/-- csvparser.extract_data_from_row over a whole field list: fields are
processed in declaration order, the first failure aborts, and a field
whose extraction yielded none takes its declared default (the dataclass
constructor fills it in). -/
def extract_data_from_row (emptyAllowed : Bool) (row : List (String × String)) :
    List FieldSpec → Except ExtractError (List (String × FieldValue))
  | [] => .ok []
  | f :: rest =>
    match extractFieldCsv emptyAllowed row f with
    | .error e => .error e
    | .ok v =>
      match extract_data_from_row emptyAllowed row rest with
      | .error e => .error e
      | .ok tail =>
        match v with
        | some fv => .ok ((f.name, fv) :: tail)
        | none =>
          match f.fdefault with
          | some d => .ok ((f.name, d) :: tail)
          | none => .ok tail

/-- The whole-file loop of pnp.parse_pnp and bom.parse_bom: every row is
extracted in order and a row failure propagates, failing the file load. -/
def parseRows (emptyAllowed : Bool) (fields : List FieldSpec) :
    List (List (String × String)) →
    Except ExtractError (List (List (String × FieldValue)))
  | [] => .ok []
  | row :: rest =>
    match extract_data_from_row emptyAllowed row fields with
    | .error e => .error e
    | .ok r =>
      match parseRows emptyAllowed fields rest with
      | .error e => .error e
      | .ok rs => .ok (r :: rs)

/-- The alias loop of bom._extract_data_from_row (lines 87-91), which
BREAKS at the first present alias. -/
def firstAliasValue (row : List (String × String)) : List String → Option String
  | [] => none
  | c :: rest =>
    match alookup c row with
    | some cell => some cell
    | none => firstAliasValue row rest

/-- Extraction of one field by bom._extract_data_from_row (lines 79-101):
first present alias wins, no type coercion; a missing field uses the
declared default or raises. -/
def bomExtractField (row : List (String × String)) (f : FieldSpec) :
    Except ExtractError (Option String) :=
  match firstAliasValue row f.csvnames with
  | some cell => .ok (some cell)
  | none =>
    if f.fdefault.isSome then .ok none
    else .error (.missingColumn f.name f.csvnames)

/-- Field declarations of pnp.ComponentData, in source order. -/
def pnpFields : List FieldSpec :=
  [⟨"reference", ["Ref", "Reference", "Designator"], false, none⟩,
   ⟨"value", ["Val", "Comment"], false, none⟩,
   ⟨"footprint", ["Package", "Footprint"], false, none⟩,
   ⟨"pos_x", ["PosX", "X"], true, none⟩,
   ⟨"pos_y", ["PosY", "Y"], true, none⟩,
   ⟨"rot", ["Rot", "Rotation"], true, none⟩,
   ⟨"side", ["Side", "Layer"], false, none⟩,
   ⟨"override", ["Override"], false, some (.str "")⟩]

/-- Field declarations of bom.RequiredData, in source order. -/
def bomFields : List FieldSpec :=
  [⟨"footprint", ["Footprint"], false, none⟩,
   ⟨"manufacturer", ["Manufacturer"], false, none⟩,
   ⟨"mpn", ["MPN"], false, none⟩]

/-- Helper: the alias loop keeps its accumulator when no alias is present. -/
theorem aliasFoldCsv_all_absent (fl : Bool) (row : List (String × String))
    (acc : Option FieldValue) (cs : List String)
    (h : ∀ c ∈ cs, alookup c row = none) :
    aliasFoldCsv fl row acc cs = .ok acc := by
  induction cs generalizing acc with
  | nil => rfl
  | cons c rest ih =>
    have hc := h c (by simp)
    simp only [aliasFoldCsv, hc]
    exact ih acc (fun c2 hc2 => h c2 (by simp [hc2]))

/-- Helper: a block of aliases whose present cells all coerce lands the
loop in some accumulator state and continues with the remaining aliases. -/
theorem aliasFoldCsv_through (fl : Bool) (row : List (String × String))
    (pre rest : List String) (acc : Option FieldValue)
    (h : ∀ c2 ∈ pre, ∀ cell2, alookup c2 row = some cell2 →
      ∃ fv2, coerceValue fl cell2 = .ok fv2) :
    ∃ acc2, aliasFoldCsv fl row acc (pre ++ rest) = aliasFoldCsv fl row acc2 rest := by
  induction pre generalizing acc with
  | nil => exact ⟨acc, rfl⟩
  | cons c pre2 ih =>
    have h2 : ∀ c2 ∈ pre2, ∀ cell2, alookup c2 row = some cell2 →
        ∃ fv2, coerceValue fl cell2 = .ok fv2 :=
      fun c2 hc2 => h c2 (by simp [hc2])
    cases hc : alookup c row with
    | none =>
      simp only [List.cons_append, aliasFoldCsv, hc]
      exact ih acc h2
    | some cell =>
      obtain ⟨fv2, hfv⟩ := h c (by simp) cell hc
      simp only [List.cons_append, aliasFoldCsv, hc, hfv]
      exact ih (some fv2) h2

/-- Helper: the bom alias scan ignores a block of absent aliases. -/
theorem firstAliasValue_skip (row : List (String × String)) (pre cs : List String)
    (h : ∀ c2 ∈ pre, alookup c2 row = none) :
    firstAliasValue row (pre ++ cs) = firstAliasValue row cs := by
  induction pre with
  | nil => rfl
  | cons c pre2 ih =>
    have hc := h c (by simp)
    simp only [List.cons_append, firstAliasValue, hc]
    exact ih (fun c2 hc2 => h c2 (by simp [hc2]))

/-- Claim C5, as stated, is false on the generic CSV extractor: for the
reference field (aliases Ref, Reference, Designator in that order) and a
row holding both Ref=A and Designator=B, the extracted value is B, the
LAST present alias, because the loop of csvparser.extract_data_from_row
has no break; the claim says the first alias (A) is used. -/
theorem c5_last_alias_wins_counterexample :
    extractFieldCsv false [("Ref", "A"), ("Designator", "B")]
      ⟨"reference", ["Ref", "Reference", "Designator"], false, none⟩ =
      .ok (some (.str "B")) ∧
    FieldValue.str "B" ≠ FieldValue.str "A" := by decide

/-- Claim C5 (amended): the BOM extractor takes the FIRST alias present in
the row (its loop breaks), while the generic CSV extractor of
csvparser.extract_data_from_row takes the LAST alias present (its loop
has no break; every present alias is still coerced in order, so each
present cell must coerce for extraction to succeed). -/
theorem c5_alias_order_amended :
    (∀ (ea : Bool) (row : List (String × String)) (f : FieldSpec)
       (pre post : List String) (c : String) (cell : String) (fv : FieldValue),
      f.csvnames = pre ++ c :: post →
      alookup c row = some cell →
      (∀ c2 ∈ post, alookup c2 row = none) →
      (∀ c2 ∈ pre, ∀ cell2, alookup c2 row = some cell2 →
        ∃ fv2, coerceValue f.isFloat cell2 = .ok fv2) →
      coerceValue f.isFloat cell = .ok fv →
      extractFieldCsv ea row f = .ok (some fv)) ∧
    (∀ (row : List (String × String)) (f : FieldSpec)
       (pre post : List String) (c : String) (cell : String),
      f.csvnames = pre ++ c :: post →
      (∀ c2 ∈ pre, alookup c2 row = none) →
      alookup c row = some cell →
      bomExtractField row f = .ok (some cell)) := by
  constructor
  · intro ea row f pre post c cell fv hnames hc hpost hpre hco
    obtain ⟨acc2, hthrough⟩ := aliasFoldCsv_through f.isFloat row pre (c :: post) none hpre
    have hloop : aliasFoldCsv f.isFloat row none f.csvnames = .ok (some fv) := by
      rw [hnames, hthrough]
      simp only [aliasFoldCsv, hc, hco]
      exact aliasFoldCsv_all_absent f.isFloat row (some fv) post hpost
    simp [extractFieldCsv, hloop]
  · intro row f pre post c cell hnames hpre hc
    have hfirst : firstAliasValue row f.csvnames = some cell := by
      rw [hnames, firstAliasValue_skip row pre (c :: post) hpre]
      simp [firstAliasValue, hc]
    simp [bomExtractField, hfirst]

/-- Witness for the amended claim C5: the csv extractor takes Designator
over Ref, the bom extractor takes Footprint over Package. -/
theorem c5_alias_order_amended_witness :
    extractFieldCsv false [("Ref", "A"), ("Designator", "B")]
      ⟨"reference", ["Ref", "Reference", "Designator"], false, none⟩ =
      .ok (some (.str "B")) ∧
    bomExtractField [("Footprint", "F1"), ("Package", "F2")]
      ⟨"footprint", ["Footprint", "Package"], false, none⟩ = .ok (some "F1") := by
  constructor
  · exact c5_alias_order_amended.1 false [("Ref", "A"), ("Designator", "B")]
      ⟨"reference", ["Ref", "Reference", "Designator"], false, none⟩
      ["Ref", "Reference"] [] "Designator" "B" (.str "B") rfl (by decide)
      (by decide)
      (by intro c2 hc2 cell2 hcell2
          exact ⟨.str cell2, rfl⟩)
      rfl
  · exact c5_alias_order_amended.2 [("Footprint", "F1"), ("Package", "F2")]
      ⟨"footprint", ["Footprint", "Package"], false, none⟩
      [] ["Package"] "Footprint" "F1" rfl (by decide) (by decide)

/-- Helper: a successful file parse means every row extracted. -/
theorem parseRows_ok_forall (ea : Bool) (fields : List FieldSpec)
    (rows : List (List (String × String)))
    (out : List (List (String × FieldValue)))
    (h : parseRows ea fields rows = .ok out) :
    ∀ row ∈ rows, ∃ r, extract_data_from_row ea row fields = .ok r := by
  induction rows generalizing out with
  | nil => intro row hrow; cases hrow
  | cons r0 rest ih =>
    intro row hrow
    simp only [parseRows] at h
    cases h1 : extract_data_from_row ea r0 fields with
    | error e => rw [h1] at h; cases h
    | ok rr =>
      rw [h1] at h
      cases h2 : parseRows ea fields rest with
      | error e => rw [h2] at h; cases h
      | ok rs =>
        rcases List.mem_cons.mp hrow with heq | hmem
        · exact ⟨rr, heq ▸ h1⟩
        · exact ih rs h2 row hmem

/-- Claim C6: with empty values disallowed, a field with no present alias
takes its declared default without error, and a field with no present
alias and no default fails with MissingColumn naming the field and the
aliases tried; that failure fails the whole file load (a successful load
implies every row extracted); with empty values allowed, the field is
assigned the None placeholder instead. -/
theorem c6_missing_field_handling :
    (∀ (row : List (String × String)) (f : FieldSpec),
      (∀ c ∈ f.csvnames, alookup c row = none) →
      (∀ d, f.fdefault = some d →
        extract_data_from_row false row [f] = .ok [(f.name, d)]) ∧
      (f.fdefault = none →
        extract_data_from_row false row [f] =
          .error (.missingColumn f.name f.csvnames)) ∧
      extract_data_from_row true row [f] = .ok [(f.name, .null)]) ∧
    (∀ (ea : Bool) (fields : List FieldSpec)
       (rows : List (List (String × String)))
       (out : List (List (String × FieldValue))),
      parseRows ea fields rows = .ok out →
      ∀ row ∈ rows, ∃ r, extract_data_from_row ea row fields = .ok r) := by
  constructor
  · intro row f habsent
    have hloop : aliasFoldCsv f.isFloat row none f.csvnames = .ok none :=
      aliasFoldCsv_all_absent f.isFloat row none f.csvnames habsent
    refine ⟨?_, ?_, ?_⟩
    · intro d hd
      simp [extract_data_from_row, extractFieldCsv, hloop, hd]
    · intro hd
      simp [extract_data_from_row, extractFieldCsv, hloop, hd]
    · simp [extract_data_from_row, extractFieldCsv, hloop]
  · exact parseRows_ok_forall

/-- Witness for claim C6: the override field defaults to the empty
string; a missing footprint field fails with MissingColumn; an override
row with empty values allowed gets the None placeholder; a parsed file
containing only a complete row extracts that row. -/
theorem c6_missing_field_handling_witness :
    extract_data_from_row false [("Ref", "R1")]
      [⟨"override", ["Override"], false, some (.str "")⟩] =
      .ok [("override", .str "")] ∧
    extract_data_from_row false [("Ref", "R1")]
      [⟨"footprint", ["Package", "Footprint"], false, none⟩] =
      .error (.missingColumn "footprint" ["Package", "Footprint"]) ∧
    extract_data_from_row true [("Ref", "R1")]
      [⟨"footprint", ["Package", "Footprint"], false, none⟩] =
      .ok [("footprint", .null)] ∧
    (∃ r, extract_data_from_row false [("Override", "X")]
      [⟨"override", ["Override"], false, some (.str "")⟩] = .ok r) := by
  refine ⟨?_, ?_, ?_, ?_⟩
  · exact (c6_missing_field_handling.1 [("Ref", "R1")]
      ⟨"override", ["Override"], false, some (.str "")⟩ (by decide)).1 (.str "") rfl
  · exact (c6_missing_field_handling.1 [("Ref", "R1")]
      ⟨"footprint", ["Package", "Footprint"], false, none⟩ (by decide)).2.1 rfl
  · exact (c6_missing_field_handling.1 [("Ref", "R1")]
      ⟨"footprint", ["Package", "Footprint"], false, none⟩ (by decide)).2.2
  · exact c6_missing_field_handling.2 false
      [⟨"override", ["Override"], false, some (.str "")⟩] [[("Override", "X")]]
      [[("override", .str "X")]] (by decide) [("Override", "X")] (by simp)

/-- The per-directory discovery loop of library._find_models (lines
34-49): each file found by the glob, given as a (model name, file path)
pair, is added only when the name is not already in the map; duplicates
are logged and skipped, never an error. -/
def findModelsDir (acc : List (String × String)) :
    List (String × String) → List (String × String)
  | [] => acc
  | rf :: rest =>
    if containsKey rf.1 acc then findModelsDir acc rest
    else findModelsDir (acc ++ [rf]) rest

/-- The directory loop of library._find_models (lines 19-51): directories
are scanned in search order, accumulating into one map. Each directory is
represented by the list of (model name, file path) pairs its recursive
glob yields, in filesystem iteration order. -/
def findModelsFrom (acc : List (String × String)) :
    List (List (String × String)) → List (String × String)
  | [] => acc
  | d :: rest => findModelsFrom (findModelsDir acc d) rest

/-- library._find_models: fold all search directories into the model map. -/
def find_models (dirs : List (List (String × String))) : List (String × String) :=
  findModelsFrom [] dirs

/-- library.get_library_directories (lines 94-104): the directories from
the MODEL_LIBRARY_PATHS environment variable, in declaration order, are
searched before the configured directories. -/
def get_library_directories {α : Type} (envDirs configDirs : List α) : List α :=
  envDirs ++ configDirs

/-- Helper: an absent key stays absent across an append. -/
theorem alookup_append_of_none {α : Type} (k : String) (l1 l2 : List (String × α))
    (h : alookup k l1 = none) : alookup k (l1 ++ l2) = alookup k l2 := by
  induction l1 with
  | nil => rfl
  | cons kv rest ih =>
    simp only [alookup] at h
    by_cases hk : kv.1 = k
    · simp [hk] at h
    · simp only [List.cons_append, alookup, hk, if_neg hk] at h ⊢
      exact ih h

/-- Helper: a present key keeps its value across an append. -/
theorem alookup_append_of_some {α : Type} (k : String) (v : α)
    (l1 l2 : List (String × α)) (h : alookup k l1 = some v) :
    alookup k (l1 ++ l2) = some v := by
  induction l1 with
  | nil => cases h
  | cons kv rest ih =>
    simp only [alookup] at h
    by_cases hk : kv.1 = k
    · simp only [List.cons_append, alookup, if_pos hk] at h ⊢
      exact h
    · simp only [List.cons_append, alookup, if_neg hk] at h ⊢
      exact ih h

/-- Helper: the per-directory loop only appends entries to the map. -/
theorem findModelsDir_eq_append (acc : List (String × String))
    (files : List (String × String)) :
    ∃ extra, findModelsDir acc files = acc ++ extra := by
  induction files generalizing acc with
  | nil => exact ⟨[], by simp [findModelsDir]⟩
  | cons rf rest ih =>
    simp only [findModelsDir]
    by_cases hc : containsKey rf.1 acc
    · simpa [hc] using ih acc
    · obtain ⟨extra, hex⟩ := ih (acc ++ [rf])
      exact ⟨[rf] ++ extra, by simp [hc, hex]⟩

/-- Helper: an entry already in the map survives a directory scan. -/
theorem findModelsDir_preserves (acc files : List (String × String))
    (name path : String) (h : alookup name acc = some path) :
    alookup name (findModelsDir acc files) = some path := by
  obtain ⟨extra, hex⟩ := findModelsDir_eq_append acc files
  rw [hex]
  exact alookup_append_of_some name path acc extra h

/-- Helper: alookup misses exactly when no pair carries the key. -/
theorem alookup_eq_none_iff {α : Type} (k : String) (l : List (String × α)) :
    alookup k l = none ↔ ∀ kv ∈ l, kv.1 ≠ k := by
  induction l with
  | nil => simp [alookup]
  | cons kv rest ih =>
    by_cases hk : kv.1 = k
    · simp [alookup, hk]
    · simp [alookup, hk, ih]

/-- Helper: a name absent from the map and from a directory stays absent. -/
theorem findModelsDir_absent (acc files : List (String × String)) (name : String)
    (hacc : alookup name acc = none)
    (hfiles : ∀ kv ∈ files, kv.1 ≠ name) :
    alookup name (findModelsDir acc files) = none := by
  induction files generalizing acc with
  | nil => exact hacc
  | cons rf rest ih =>
    simp only [findModelsDir]
    have hrf : rf.1 ≠ name := hfiles rf (by simp)
    have hrest : ∀ kv ∈ rest, kv.1 ≠ name := fun kv hkv => hfiles kv (by simp [hkv])
    by_cases hc : containsKey rf.1 acc
    · simpa [hc] using ih acc hacc hrest
    · have hacc2 : alookup name (acc ++ [rf]) = none := by
        rw [alookup_append_of_none name acc [rf] hacc]
        simp [alookup, hrf]
      simpa [hc] using ih (acc ++ [rf]) hacc2 hrest

/-- Helper: scanning a directory that holds exactly one file for a name
not yet in the map records that file, regardless of where in the
directory listing it appears. -/
theorem findModelsDir_adds (acc files : List (String × String))
    (name path : String) (hacc : alookup name acc = none)
    (hfilter : files.filter (fun kv => kv.1 = name) = [(name, path)]) :
    alookup name (findModelsDir acc files) = some path := by
  induction files generalizing acc with
  | nil => simp at hfilter
  | cons rf rest ih =>
    simp only [findModelsDir]
    by_cases hrf : rf.1 = name
    · have : rf :: rest.filter (fun kv => kv.1 = name) = [(name, path)] := by
        simpa [List.filter_cons, hrf] using hfilter
      obtain ⟨hrfeq, hrest⟩ := List.cons_eq_cons.mp this
      have hcontains : containsKey rf.1 acc = false := by
        subst hrfeq
        simp [containsKey, hacc]
      rw [if_neg (by simp [hcontains])]
      subst hrfeq
      have hsome : alookup name (acc ++ [(name, path)]) = some path := by
        rw [alookup_append_of_none name acc _ hacc]
        simp [alookup]
      exact findModelsDir_preserves _ rest name path hsome
    · have hrest : rest.filter (fun kv => kv.1 = name) = [(name, path)] := by
        simpa [List.filter_cons, hrf] using hfilter
      by_cases hc : containsKey rf.1 acc
      · simpa [hc] using ih acc hacc hrest
      · have hacc2 : alookup name (acc ++ [rf]) = none := by
          rw [alookup_append_of_none name acc [rf] hacc]
          simp [alookup, hrf]
        simpa [hc] using ih (acc ++ [rf]) hacc2 hrest

/-- Helper: an entry already recorded survives all later directories. -/
theorem findModelsFrom_preserves (acc : List (String × String))
    (dirs : List (List (String × String))) (name path : String)
    (h : alookup name acc = some path) :
    alookup name (findModelsFrom acc dirs) = some path := by
  induction dirs generalizing acc with
  | nil => exact h
  | cons d rest ih =>
    simp only [findModelsFrom]
    exact ih (findModelsDir acc d) (findModelsDir_preserves acc d name path h)

/-- Claim C7: a model name found in several search directories resolves
to the copy in the first directory searched (environment directories, in
declaration order, come before configured directories), independently of
the filesystem iteration order inside each directory: any directory
listing holding exactly one file for the name yields that file. -/
theorem c7_first_directory_wins
    (envDirs cfgDirs pre post : List (List (String × String)))
    (d : List (String × String)) (name path : String)
    (hsplit : get_library_directories envDirs cfgDirs = pre ++ d :: post)
    (hpre : ∀ files ∈ pre, alookup name files = none)
    (hd : d.filter (fun kv => kv.1 = name) = [(name, path)]) :
    alookup name (find_models (get_library_directories envDirs cfgDirs)) = some path := by
  rw [hsplit]
  unfold find_models
  have haux : ∀ (pre2 : List (List (String × String))) (acc : List (String × String)),
      alookup name acc = none →
      (∀ files ∈ pre2, alookup name files = none) →
      alookup name (findModelsFrom acc (pre2 ++ d :: post)) = some path := by
    intro pre2
    induction pre2 with
    | nil =>
      intro acc hacc _
      simp only [List.nil_append, findModelsFrom]
      exact findModelsFrom_preserves _ post name path (findModelsDir_adds acc d name path hacc hd)
    | cons files pre3 ih =>
      intro acc hacc hpre2
      simp only [List.cons_append, findModelsFrom]
      have hfiles : ∀ kv ∈ files, kv.1 ≠ name :=
        (alookup_eq_none_iff name files).mp (hpre2 files (by simp))
      exact ih (findModelsDir acc files)
        (findModelsDir_absent acc files name hacc hfiles)
        (fun fs hfs => hpre2 fs (by simp [hfs]))
  exact haux pre [] rfl hpre

/-- Witness for claim C7: the name M is present both in the single
environment directory and in a configured directory; the environment
copy wins. -/
theorem c7_first_directory_wins_witness :
    alookup "M"
      (find_models (get_library_directories
        [[("M", "env/M.blend")]]
        [[("M", "cfg/M.blend"), ("N", "cfg/N.blend")]])) = some "env/M.blend" :=
  c7_first_directory_wins [[("M", "env/M.blend")]]
    [[("M", "cfg/M.blend"), ("N", "cfg/N.blend")]]
    [] [[("M", "cfg/M.blend"), ("N", "cfg/N.blend")]]
    [("M", "env/M.blend")] "M" "env/M.blend" rfl
    (by intro files hfiles; cases hfiles) (by decide)

/-- Value of a Blender custom property as import_comp reads them: the
PRIO flag (an integer), the POS and ROTATE float triples, and the string
MODEL_NAME entries. -/
inductive PropVal where
  | int (n : Int)
  | floats (l : List ℚ)
  | str (s : String)
deriving DecidableEq

/-- Metadata of a loaded model object: its custom properties in
definition order. -/
structure ModelInfo where
  props : List (String × PropVal)
deriving DecidableEq

/-- Python footprint[-63:] (importer.py line 162): the last 63 characters
of the name, or the whole name when shorter. -/
def clip63 (s : String) : String :=
  ⟨s.toList.drop (s.toList.length - 63)⟩

/-- Mutable staging state of the importer: the models_imported list of
clipped object names, and the metadata of each staged object (the object
renamed to the clipped name and linked into the Temp collection). -/
structure CreateState where
  modelsImported : List String
  staged : List (String × ModelInfo)
deriving DecidableEq

/-- What create_component did: loaded a fresh asset from the library and
staged it, cloned an already-staged object, or failed because the backend
rejected the asset (components.load_model returned None). -/
inductive CreateResult where
  | loaded (path : String) (info : ModelInfo)
  | cloned (objName : String) (info : Option ModelInfo)
  | failed
deriving DecidableEq

/-- importer.create_component (lines 155-185): the staging key is the
footprint name clipped to its last 63 characters. When the key was
already staged, the staged object is copied — without consulting the
library at all. Otherwise the footprint must be in the library map (else
a RuntimeError), the asset is loaded through the backend (modelled as a
map from blend path to the loaded metadata; an absent entry is a
load_model None result), staged under the clipped name, and a copy
returned. -/
def create_component (blendModels : List (String × String))
    (backend : List (String × ModelInfo)) (st : CreateState) (footprint : String) :
    Except String (CreateState × CreateResult) :=
  let objName := clip63 footprint
  if objName ∈ st.modelsImported then
    .ok (st, .cloned objName (alookup objName st.staged))
  else
    match alookup footprint blendModels with
    | none => .error ("Cannot create component for footprint " ++ footprint)
    | some path =>
      match alookup path backend with
      | none => .ok (st, .failed)
      | some info =>
        .ok ({ modelsImported := st.modelsImported ++ [objName],
               staged := dinsert objName info st.staged }, .loaded path info)

/-- Helper for matchSubmodelKey: when suf is a suffix of tail, the part
of tail before it; none otherwise. -/
def submodelSuffixOf (tail suf : List Char) : Option (List Char) :=
  if tail.length ≥ suf.length ∧ tail.drop (tail.length - suf.length) = suf then
    some (tail.take (tail.length - suf.length))
  else none

/-- The regular expression of parse_submodel_properties (importer.py line
318): one or more digits, an underscore, a greedy middle group, an
underscore and one of ROTATE, POS, MODEL_NAME at the end. The three
suffixes are mutually exclusive at the end of a string, and the greedy
middle makes the suffix the last such occurrence, so matching the literal
suffix is exact. Returns (middle group, property kind). -/
def matchSubmodelKey (key : String) : Option (String × String) :=
  let cs := key.toList
  let ds := cs.takeWhile Char.isDigit
  let rest := cs.drop ds.length
  if ds.isEmpty then none
  else
    match rest with
    | '_' :: tail =>
      match submodelSuffixOf tail "_ROTATE".toList with
      | some mid => some (⟨mid⟩, "ROTATE")
      | none =>
        match submodelSuffixOf tail "_POS".toList with
        | some mid => some (⟨mid⟩, "POS")
        | none =>
          match submodelSuffixOf tail "_MODEL_NAME".toList with
          | some mid => some (⟨mid⟩, "MODEL_NAME")
          | none => none
    | _ => none

/-- importer.parse_submodel_properties (lines 316-328): group the custom
properties whose keys match the sub-model pattern by middle name, each
carrying its property kind map, in first-seen order. -/
def parse_submodel_properties (props : List (String × PropVal)) :
    List (String × List (String × PropVal)) :=
  props.foldl
    (fun sm kv =>
      match matchSubmodelKey kv.1 with
      | none => sm
      | some np =>
        dinsert np.1 (dinsert np.2 kv.2 ((alookup np.1 sm).getD [])) sm) []

/-- Python `component["PRIO"] != 0`: an integer property compares
numerically, any non-integer value is unequal to 0. -/
def prioNonzero : PropVal → Bool
  | .int n => n ≠ 0
  | _ => true

/-- One emitted placement of the full import model: like Placement, plus
the sub-model offsets baked into the object before the final transform
(importer.py lines 230-248); they are zero for top-level instances. -/
structure PlacementF where
  footprint : String
  name : String
  pos : ℚ × ℚ × ℚ
  rot : ℚ × ℚ × ℚ
  side : String
  subPos : List ℚ
  subRot : List ℚ
deriving DecidableEq

/-- The offsets baked into the object (importer.py lines 230-248): only
when mechanical display is on and the object has a nonzero PRIO property
are the sub-model position and rotation applied; otherwise the object
stays at the origin (a missing PRIO raises a caught KeyError). -/
def bakedOffsets (showMech : Bool) (info : ModelInfo) (subPos subRot : List ℚ) :
    List ℚ × List ℚ :=
  if showMech then
    match alookup "PRIO" info.props with
    | some pv => if prioNonzero pv then (subPos, subRot) else ([0, 0, 0], [0, 0, 0])
    | none => ([0, 0, 0], [0, 0, 0])
  else ([0, 0, 0], [0, 0, 0])

/-- The placement record import_comp emits for one created object:
the side transform and recentering of lines 258-282 on top of the baked
offsets. -/
def placeMain (footprint name : String) (posx posy : ℚ) (side : String)
    (deg posZ dimX dimY : ℚ) (subPos subRot : List ℚ) : PlacementF :=
  let tr := transformFor posx posy side deg posZ dimX dimY
  ⟨footprint, name, tr.1, tr.2, side, subPos, subRot⟩

/-- The object metadata create_component hands back, when any. -/
def infoOfResult : CreateResult → Option ModelInfo
  | .loaded _ info => some info
  | .cloned _ info => info
  | .failed => none

/-- The sub-model loop of import_comp (lines 299-313), abstracted over
the recursive import call: each sub-model in order triggers one recursive
load of its middle-name footprint with its POS and ROTATE offsets,
threading the staging state and collecting the emitted placements;
a sub-model without float POS and ROTATE data is a KeyError. -/
def importSubsWith
    (recur : CreateState → String → String → List ℚ → List ℚ →
      Except String (CreateState × List PlacementF))
    (st : CreateState) (name : String) :
    List (String × List (String × PropVal)) → Nat → List PlacementF →
    Except String (CreateState × List PlacementF)
  | [], _, acc => .ok (st, acc)
  | (num, pdict) :: rest, idx, acc =>
    match alookup "POS" pdict, alookup "ROTATE" pdict with
    | some (.floats p), some (.floats r) =>
      match recur st num (name ++ "_" ++ toString idx ++ "_submodel") p r with
      | .error e => .error e
      | .ok (st2, pls) => importSubsWith recur st2 name rest (idx + 1) (acc ++ pls)
    | _, _ => .error ("submodel " ++ num ++ " missing POS or ROTATE")

/-- Full model of importer.import_comp (lines 188-313) including staging
and sub-model expansion. Skips a side that is neither T nor B, creates
the object (clone or load), bakes the sub-model offsets, emits the main
placement, and — only when mechanical display is on and the object
carries a PRIO property equal to 0 — expands the sub-model triples found
in the metadata, recursing once per sub-model. The fuel bounds the
recursion depth of the embedding; the data-dependent recursion of the
source is reproduced faithfully below it. -/
def importCompF (fuel : Nat) (showMech : Bool)
    (blendModels : List (String × String)) (backend : List (String × ModelInfo))
    (dimX dimY : ℚ) (st : CreateState) (footprint name : String)
    (posx posy : ℚ) (side : String) (deg boardThickness : ℚ)
    (subPos subRot : List ℚ) : Except String (CreateState × List PlacementF) :=
  match fuel with
  | 0 => .error "submodel recursion depth exceeded"
  | fuel2 + 1 =>
    if side ≠ "T" ∧ side ≠ "B" then .ok (st, [])
    else
      match create_component blendModels backend st footprint with
      | .error e => .error e
      | .ok (st1, cres) =>
        match infoOfResult cres with
        | none => .ok (st1, [])
        | some info =>
          let baked := bakedOffsets showMech info subPos subRot
          let main := placeMain footprint name posx posy side deg boardThickness
            dimX dimY baked.1 baked.2
          if showMech then
            match alookup "PRIO" info.props with
            | none => .ok (st1, [main])
            | some pv =>
              if prioNonzero pv then .ok (st1, [main])
              else
                match parse_submodel_properties info.props with
                | [] => .ok (st1, [main])
                | sm :: sms =>
                  importSubsWith
                    (fun st2 num nm p r =>
                      importCompF fuel2 showMech blendModels backend dimX dimY
                        st2 num nm posx posy side deg boardThickness p r)
                    st1 name (sm :: sms) 0 [main]
          else .ok (st1, [main])

/-- Metadata of a demonstration main model: PRIO 0 (a main instance) and
one sub-model SUB1 with POS and ROTATE triples. -/
def mainInfo : ModelInfo :=
  ⟨[("PRIO", .int 0), ("1_SUB1_POS", .floats [1, 0, 0]),
    ("1_SUB1_ROTATE", .floats [0, 0, 90])]⟩

/-- Metadata of the demonstration sub-model: PRIO 1 (a sub-instance). -/
def subInfo : ModelInfo := ⟨[("PRIO", .int 1)]⟩

/-- Library map of the demonstration: the main model and its sub-model. -/
def demoModels : List (String × String) :=
  [("MAIN", "lib/MAIN.blend"), ("SUB1", "lib/SUB1.blend")]

/-- Backend contents of the demonstration. -/
def demoBackend : List (String × ModelInfo) :=
  [("lib/MAIN.blend", mainInfo), ("lib/SUB1.blend", subInfo)]

/-- Claim C9: with mechanical display disabled the engine emits no
sub-model child for any entry — every successful import yields either
nothing (skipped side or failed load) or exactly the main placement with
zero baked offsets — even when the model metadata declares sub-models;
and with it enabled, the demonstration model with one declared sub-model
emits the main placement followed by the child placement. -/
theorem c9_submodels_gated_on_show_mechanical :
    (∀ (fuel : Nat) (bm : List (String × String)) (be : List (String × ModelInfo))
       (dimX dimY : ℚ) (st : CreateState) (fp nm : String) (posx posy : ℚ)
       (side : String) (deg bt : ℚ) (sp sr : List ℚ)
       (st2 : CreateState) (pls : List PlacementF),
      importCompF fuel false bm be dimX dimY st fp nm posx posy side deg bt sp sr =
        .ok (st2, pls) →
      pls = [] ∨
        pls = [placeMain fp nm posx posy side deg bt dimX dimY [0, 0, 0] [0, 0, 0]]) ∧
    importCompF 2 true demoModels demoBackend 0 0 ⟨[], []⟩ "MAIN" "U1:V" 3 2 "T" 0
        (8/5) [0, 0, 0] [0, 0, 0] =
      .ok (⟨["MAIN", "SUB1"], [("MAIN", mainInfo), ("SUB1", subInfo)]⟩,
        [placeMain "MAIN" "U1:V" 3 2 "T" 0 (8/5) 0 0 [0, 0, 0] [0, 0, 0],
         placeMain "SUB1" "U1:V_0_submodel" 3 2 "T" 0 (8/5) 0 0 [1, 0, 0] [0, 0, 90]]) := by
  constructor
  · intro fuel bm be dimX dimY st fp nm posx posy side deg bt sp sr st2 pls h
    cases fuel with
    | zero => simp [importCompF] at h
    | succ fuel2 =>
      simp only [importCompF] at h
      by_cases hside : side ≠ "T" ∧ side ≠ "B"
      · rw [if_pos hside] at h
        simp only [Except.ok.injEq, Prod.mk.injEq] at h
        exact Or.inl h.2.symm
      · rw [if_neg hside] at h
        cases hc : create_component bm be st fp with
        | error e => rw [hc] at h; cases h
        | ok p =>
          obtain ⟨st1, cres⟩ := p
          rw [hc] at h
          dsimp only at h
          cases hi : infoOfResult cres with
          | none =>
            rw [hi] at h
            simp only [Except.ok.injEq, Prod.mk.injEq] at h
            exact Or.inl h.2.symm
          | some info =>
            rw [hi] at h
            simp only [bakedOffsets, Bool.false_eq_true, if_false,
              Except.ok.injEq, Prod.mk.injEq] at h
            exact Or.inr h.2.symm
  · rfl

/-- Witness for claim C9: the gating part applied to a concrete
mechanical-display-off run over the demonstration data, whose single
emitted placement is the main placement with zero offsets. -/
theorem c9_submodels_gated_witness :
    ([placeMain "MAIN" "U1:V" 3 2 "T" 0 (8/5) 0 0 [0, 0, 0] [0, 0, 0]] :
        List PlacementF) = [] ∨
    ([placeMain "MAIN" "U1:V" 3 2 "T" 0 (8/5) 0 0 [0, 0, 0] [0, 0, 0]] :
        List PlacementF) =
      [placeMain "MAIN" "U1:V" 3 2 "T" 0 (8/5) 0 0 [0, 0, 0] [0, 0, 0]] :=
  c9_submodels_gated_on_show_mechanical.1 1 demoModels demoBackend 0 0 ⟨[], []⟩
    "MAIN" "U1:V" 3 2 "T" 0 (8/5) [0, 0, 0] [0, 0, 0]
    ⟨["MAIN"], [("MAIN", mainInfo)]⟩
    [placeMain "MAIN" "U1:V" 3 2 "T" 0 (8/5) 0 0 [0, 0, 0] [0, 0, 0]] rfl

/-- A 63-character suffix shared by the two demonstration footprints. -/
def suffix63 : String := ⟨List.replicate 63 'x'⟩

/-- Demonstration footprint A: one character plus the 63-char suffix. -/
def fpA : String := "A" ++ suffix63

/-- Demonstration footprint B: a DIFFERENT footprint with the same last
63 characters. -/
def fpB : String := "B" ++ suffix63

/-- Claim C10: staged-instance reuse is keyed by the last 63 characters
of the resolved model name. A footprint whose clipped name is not yet
staged loads its asset from the library and stages it under the clipped
name; any later footprint whose name shares those 63 characters — even a
different footprint — is produced by cloning the staged object, without
consulting the library. -/
theorem c10_reuse_keyed_by_last_63 :
    (∀ (bm : List (String × String)) (be : List (String × ModelInfo))
       (st : CreateState) (f path : String) (info : ModelInfo),
      clip63 f ∉ st.modelsImported →
      alookup f bm = some path →
      alookup path be = some info →
      create_component bm be st f =
        .ok (⟨st.modelsImported ++ [clip63 f], dinsert (clip63 f) info st.staged⟩,
          .loaded path info)) ∧
    (∀ (bm : List (String × String)) (be : List (String × ModelInfo))
       (st : CreateState) (f g : String),
      clip63 g = clip63 f →
      clip63 f ∈ st.modelsImported →
      create_component bm be st g =
        .ok (st, .cloned (clip63 f) (alookup (clip63 f) st.staged))) := by
  constructor
  · intro bm be st f path info h1 h2 h3
    simp [create_component, h1, h2, h3]
  · intro bm be st f g hg hmem
    simp [create_component, hg, hmem]

/-- Witness for claim C10: footprint A (64 characters) loads and stages
under its 63-character tail; footprint B, which differs from A but shares
that tail, is cloned from the staged object even though B is absent from
the library map. -/
theorem c10_reuse_keyed_by_last_63_witness :
    create_component [(fpA, "lib/A.blend")] [("lib/A.blend", ModelInfo.mk [])]
        ⟨[], []⟩ fpA =
      .ok (⟨[] ++ [clip63 fpA], dinsert (clip63 fpA) (ModelInfo.mk []) []⟩,
        .loaded "lib/A.blend" (ModelInfo.mk [])) ∧
    create_component [(fpA, "lib/A.blend")] [("lib/A.blend", ModelInfo.mk [])]
        ⟨[clip63 fpA], [(clip63 fpA, ModelInfo.mk [])]⟩ fpB =
      .ok (⟨[clip63 fpA], [(clip63 fpA, ModelInfo.mk [])]⟩,
        .cloned (clip63 fpA) (alookup (clip63 fpA) [(clip63 fpA, ModelInfo.mk [])])) :=
  ⟨c10_reuse_keyed_by_last_63.1 [(fpA, "lib/A.blend")]
      [("lib/A.blend", ModelInfo.mk [])] ⟨[], []⟩ fpA "lib/A.blend" (ModelInfo.mk [])
      (by decide) (by decide) (by decide),
   c10_reuse_keyed_by_last_63.2 [(fpA, "lib/A.blend")]
      [("lib/A.blend", ModelInfo.mk [])] ⟨[clip63 fpA], [(clip63 fpA, ModelInfo.mk [])]⟩
      fpA fpB (by decide) (by decide)⟩

end PicknBlend
